import Mathlib

/-!
Verification of the citation normalization / classification / enrichment engine
of the `graph_building` repository (`preprocess_citations.py`,
`analyze_unparseable.py`), as a shallow embedding over `List Char`.

Citation strings are modelled as `List Char`.  The Python regular expressions
used by the source are each embedded as a specialized deterministic scanner
(the patterns involved have no essential backtracking: every greedy
quantifier in them is followed by a character that cannot extend the
quantified class, except for the word-boundary cases which are analysed
explicitly in the comments of each matcher).
-/

namespace GraphBuilding

/-- Python `\s` (ASCII whitespace as used by `re` on these inputs). -/
def pyIsSpace (c : Char) : Bool :=
  c = ' ' || c = '\t' || c = '\n' || c = '\r' || c = '\x0b' || c = '\x0c'

/-- Python `\d` (ASCII digits as used on these inputs). -/
def pyIsDigit (c : Char) : Bool := c.isDigit

/-- Python `\w` (word character: ASCII alphanumerics, underscore, and the
Latin-1 letters that occur in this corpus, plus `œ`/`Œ`). -/
def pyIsWord (c : Char) : Bool :=
  c.isAlphanum || c = '_' ||
  (0xC0 ≤ c.toNat && c.toNat ≤ 0xFF && c ≠ '×' && c ≠ '÷') ||
  c = 'œ' || c = 'Œ'

/-- Python `str.lower` restricted to the characters this corpus uses:
ASCII `A`–`Z` and the Latin-1 uppercase letters `À`–`Þ` (excluding `×`),
plus `Œ`. -/
def pyLowerChar (c : Char) : Char :=
  if 0x41 ≤ c.toNat && c.toNat ≤ 0x5A then Char.ofNat (c.toNat + 0x20)
  else if 0xC0 ≤ c.toNat && c.toNat ≤ 0xDE && c.toNat ≠ 0xD7 then Char.ofNat (c.toNat + 0x20)
  else if c = 'Œ' then 'œ'
  else c

/-- Python `str.upper` restricted to ASCII lowercase (the statute
abbreviation lists are ASCII lowercase). -/
def pyUpperChar (c : Char) : Char :=
  if 0x61 ≤ c.toNat && c.toNat ≤ 0x7A then Char.ofNat (c.toNat - 0x20) else c

/-- The regex class `[A-ZÄÖÜ]`. -/
def isUpperAbbrev (c : Char) : Bool :=
  ('A' ≤ c && c ≤ 'Z') || c = 'Ä' || c = 'Ö' || c = 'Ü'

/-- The regex class `[a-zäöü]`. -/
def isLowerAbbrevDE (c : Char) : Bool :=
  ('a' ≤ c && c ≤ 'z') || c = 'ä' || c = 'ö' || c = 'ü'

/-- The regex class `[A-ZÄÖÜa-zäöüß]` (patterns 1 and 2 of the Normalizer). -/
def isAbbrevChar (c : Char) : Bool := isUpperAbbrev c || isLowerAbbrevDE c || c = 'ß'

/-- The regex class `[A-ZÄÖÜa-zäöü]` (pattern 3 of the Normalizer). -/
def isAbbrevChar3 (c : Char) : Bool := isUpperAbbrev c || isLowerAbbrevDE c

/-- The regex class `[a-zàâäéèêëïîôùûüÿœæç]` (pattern 4 of the Normalizer). -/
def isFootnoteLower (c : Char) : Bool :=
  ('a' ≤ c && c ≤ 'z') ||
  ['à','â','ä','é','è','ê','ë','ï','î','ô','ù','û','ü','ÿ','œ','æ','ç'].contains c

/-- Maximal run of characters satisfying `p` (greedy quantifier). -/
def takeRun (p : Char → Bool) : List Char → List Char × List Char
  | [] => ([], [])
  | c :: cs =>
    if p c then
      let (r, rest) := takeRun p cs
      (c :: r, rest)
    else ([], c :: cs)

/-- `\b` placed after a word character: holds iff the next character is
absent or not a word character. -/
def boundaryAfter : List Char → Bool
  | [] => true
  | c :: _ => !pyIsWord c

/-- `\b` placed before a word character, given the previous character. -/
def boundaryBefore : Option Char → Bool
  | none => true
  | some p => !pyIsWord p

/-- `p` is a prefix of `s` (plain list comparison). -/
def listStarts : List Char → List Char → Bool
  | [], _ => true
  | _ :: _, [] => false
  | p :: ps, c :: cs => p = c && listStarts ps cs

/-- `p` is a suffix of `s`. -/
def listEnds (p s : List Char) : Bool := listStarts p.reverse s.reverse

/-- `p` occurs as a contiguous substring of `s` (Python `in`). -/
def hasSub (p : List Char) : List Char → Bool
  | [] => listStarts p []
  | c :: cs => listStarts p (c :: cs) || hasSub p cs

/-- Python `str.strip()` (both ends, whitespace). -/
def pyStrip (s : List Char) : List Char :=
  ((s.dropWhile pyIsSpace).reverse.dropWhile pyIsSpace).reverse

/-! ### Normalizer (`normalize_citation`, src/preprocess_citations.py:16–42)

Each `re.sub` pattern is embedded as a matcher returning, on a match at the
current position, the replacement text and the unconsumed rest; a fuelled
scanner applies it at every position left to right, resuming after each
match (Python `re.sub` semantics; all patterns consume at least two
characters, so fuel equal to the string length suffices). -/

/-- Pattern 1: `(\d+)\s+a([A-ZÄÖÜ][A-ZÄÖÜa-zäöüß]{1,})\b` → `\1 a \2`.
The trailing `\b` succeeds only after the maximal class run, since any
shorter run is followed by a class (hence word) character. -/
def matchP1 (s : List Char) : Option (List Char × List Char) :=
  let (ds, r1) := takeRun pyIsDigit s
  if ds.isEmpty then none else
  let (ws, r2) := takeRun pyIsSpace r1
  if ws.isEmpty then none else
  match r2 with
  | 'a' :: u :: r4 =>
    if isUpperAbbrev u then
      let (run, r5) := takeRun isAbbrevChar r4
      if run.isEmpty then none
      else if boundaryAfter r5 then
        some (ds ++ [' ', 'a', ' '] ++ u :: run, r5)
      else none
    else none
  | _ => none

/-- Pattern 2: `(\s)a([A-ZÄÖÜ][A-ZÄÖÜa-zäöüß]{1,})\b` → `\1a \2`. -/
def matchP2 (s : List Char) : Option (List Char × List Char) :=
  match s with
  | w :: 'a' :: u :: rest =>
    if pyIsSpace w && isUpperAbbrev u then
      let (run, r) := takeRun isAbbrevChar rest
      if run.isEmpty then none
      else if boundaryAfter r then some ([w, 'a', ' '] ++ u :: run, r)
      else none
    else none
  | _ => none

/-- Fuelled global-substitution scanner for matchers that do not look at the
preceding character. -/
def subScan (m : List Char → Option (List Char × List Char)) :
    Nat → List Char → List Char
  | _, [] => []
  | 0, s => s
  | Nat.succ f, c :: cs =>
    match m (c :: cs) with
    | some (rep, rest) => rep ++ subScan m f rest
    | none => c :: subScan m f cs

/-- Pattern 3: `\b([Aa]rt)\.?(\d+)([A-ZÄÖÜ][A-ZÄÖÜa-zäöü]{1,})\b` → `\1. \2 \3`.
Returns the replacement, the last character of the matched original text
(needed as boundary context for the continued scan) and the rest. -/
def matchP3 (prev : Option Char) (s : List Char) : Option (List Char × Char × List Char) :=
  if !boundaryBefore prev then none else
  match s with
  | a :: 'r' :: 't' :: r1 =>
    if a = 'A' || a = 'a' then
      let r2 := match r1 with
        | '.' :: r => r
        | r => r
      let (ds, r3) := takeRun pyIsDigit r2
      if ds.isEmpty then none else
      match r3 with
      | u :: r4 =>
        if isUpperAbbrev u then
          let (run, r5) := takeRun isAbbrevChar3 r4
          if run.isEmpty then none
          else if boundaryAfter r5 then
            some ([a, 'r', 't', '.', ' '] ++ ds ++ [' '] ++ u :: run, run.getLastD u, r5)
          else none
        else none
      | [] => none
    else none
  | _ => none

/-- Fuelled scanner for pattern 3, tracking the previous original character
for its leading word boundary. -/
def subScan3 : Nat → Option Char → List Char → List Char
  | _, _, [] => []
  | 0, _, s => s
  | Nat.succ f, prev, c :: cs =>
    match matchP3 prev (c :: cs) with
    | some (rep, last, rest) => rep ++ subScan3 f (some last) rest
    | none => c :: subScan3 f (some c) cs

/-- Pattern 4 (on the reversed string): `([a-zàâäéèêëïîôùûüÿœæç])\d+$` → `\1`.
Strips the maximal trailing digit run when it directly follows a qualifying
lowercase letter. -/
def stripFootnoteRev (l : List Char) : List Char :=
  let (ds, r) := takeRun pyIsDigit l
  if ds.isEmpty then l else
  match r with
  | c :: _ => if isFootnoteLower c then r else l
  | [] => l

/-- Pattern 4 including Python's `$` semantics (end of string, or just
before a final newline). -/
def stripFootnote (s : List Char) : List Char :=
  match s.reverse with
  | '\n' :: rest => (stripFootnoteRev rest).reverse ++ ['\n']
  | rev => (stripFootnoteRev rev).reverse

/-- `citation.strip().replace(' ', '').replace('.', '').isdigit()`
(note: Python's `isdigit` is `False` on the empty string). -/
def isDigitOnlyCheck (s : List Char) : Bool :=
  let t := (pyStrip s).filter (fun c => !(c = ' ' || c = '.'))
  !t.isEmpty && t.all pyIsDigit

/-- `normalize_citation` (src/preprocess_citations.py:16–42), on strings.
The Python falsy guard (`not citation`) is the `isEmpty` test; the
non-string branch of the guard lives in `normalizePy` below. -/
def normalize_citation (s : List Char) : List Char × Bool × Bool :=
  if s.isEmpty then (s, false, false) else
  let s1 := subScan matchP1 s.length s
  let s2 := subScan matchP2 s1.length s1
  let s3 := subScan3 s2.length none s2
  let s4 := stripFootnote s3
  (s4, !(s4 == s), isDigitOnlyCheck s4)

/-! ### Garbage filter (`is_garbage_citation`, src/preprocess_citations.py:44–97) -/

/-- Rule 1: `re.match(r'^(Abs\.|Al\.|al\.|lit\.|let\.|Lit\.|Let\.)\s', citation)`. -/
def fragPieces : List (List Char) :=
  ["Abs.", "Al.", "al.", "lit.", "let.", "Lit.", "Let."].map String.data

def isFragmentMarker (s : List Char) : Bool :=
  fragPieces.any fun p =>
    listStarts p s &&
    match s.drop p.length with
    | c :: _ => pyIsSpace c
    | [] => false

/-- The month token list of `is_garbage_citation` (lowercase, FR/DE/IT,
with the source's duplicates kept). -/
def monthTokens : List (List Char) :=
  ["januar", "februar", "märz", "april", "mai", "juni", "juli", "august",
   "september", "oktober", "november", "dezember", "janvier", "février",
   "mars", "avril", "mai", "juin", "juillet", "août", "septembre",
   "octobre", "novembre", "décembre", "gennaio", "febbraio", "marzo",
   "aprile", "maggio", "giugno", "luglio", "agosto", "settembre",
   "ottobre", "novembre", "dicembre"].map String.data

def hasMonth (s : List Char) : Bool :=
  monthTokens.any fun m => hasSub m (s.map pyLowerChar)

/-- One position of `re.search(r'\b[Aa]rt\.?\s*\d', citation)`.  The `\.?`
and `\s*` are deterministic here: on backtracking the dropped characters
cannot match the next literal. -/
def artDigitAt (prev : Option Char) (s : List Char) : Bool :=
  boundaryBefore prev &&
  match s with
  | a :: 'r' :: 't' :: r =>
    (a = 'A' || a = 'a') &&
    (let r2 := match r with
       | '.' :: t => t
       | t => t
     let (_, r3) := takeRun pyIsSpace r2
     match r3 with
     | d :: _ => pyIsDigit d
     | [] => false)
  | _ => false

def searchArtDigitAux : Option Char → List Char → Bool
  | _, [] => false
  | prev, c :: cs => artDigitAt prev (c :: cs) || searchArtDigitAux (some c) cs

/-- `re.search(r'\b[Aa]rt\.?\s*\d', citation)` (an article marker followed
by a digit). -/
def hasArticleMarker (s : List Char) : Bool := searchArtDigitAux none s

/-- Rule 3: `re.match(r'^\d+\s*(ff?\.?)$', citation)`; `$` matches at the
end or just before a final newline. -/
def checkFTail (r : List Char) : Bool :=
  ["f", "ff", "f.", "ff.", "f\n", "ff\n", "f.\n", "ff.\n"].any
    fun t => r == t.data

def isPageRef (s : List Char) : Bool :=
  let (ds, r1) := takeRun pyIsDigit s
  if ds.isEmpty then false else
  let (_, r2) := takeRun pyIsSpace r1
  checkFTail r2

/-- Rule 4 ending list of `is_garbage_citation`. -/
def incompleteEndings : List (List Char) :=
  ["de la", "du", "des", "de l'", "della", "del", "ist (", "sind (",
   "sowie ", "et art", "e art"].map String.data

/-- Rule 5 keyword list of `is_garbage_citation`. -/
def proposalWords : List (List Char) :=
  ["proposition", "motion", "postulat", "initiative", "anfrage"].map String.data

/-- Rule 6: `re.search(r'(Abs|abs|Art|art)\s*$', citation)` — equivalently,
after removing trailing whitespace the text ends with one of the four
marker tokens (no word boundary is required by the pattern). -/
def endsWithBareMarker (s : List Char) : Bool :=
  let t := (s.reverse.dropWhile pyIsSpace).reverse
  ["Abs", "abs", "Art", "art"].any fun m => listEnds m.data t

/-- `is_garbage_citation` (src/preprocess_citations.py:44–97), on strings.
Returns `(is_garbage, reason)`. -/
def is_garbage_citation (s : List Char) : Bool × Option String :=
  if s.isEmpty then (false, none)
  else if isFragmentMarker s then (true, some "fragment_marker")
  else if hasMonth s && !hasArticleMarker s then (true, some "date_reference")
  else if isPageRef s then (true, some "page_reference")
  else if incompleteEndings.any (fun e => listEnds e s) then (true, some "incomplete_fragment")
  else if proposalWords.any (fun w => hasSub w (s.map pyLowerChar)) then
    (true, some "legislative_proposal")
  else if endsWithBareMarker s then (true, some "incomplete_fragment")
  else if decide (s.length > 50) && !hasArticleMarker s then (true, some "non_citation_text")
  else (false, none)

/-! ### Categorizer (`categorize_citation`, src/analyze_unparseable.py:17–60) -/

inductive Category where
  | GARBAGE_REPEALED
  | GARBAGE_FRAGMENT
  | GARBAGE_DATE
  | GARBAGE_PAGE_REF
  | GARBAGE_INCOMPLETE
  | GARBAGE_PROPOSAL
  | RESCUABLE_ARTICLE_ONLY
  | NON_SWISS_LAW
  | UNKNOWN
deriving DecidableEq

/-- Repealed/abrogated tokens tested on the lowercased citation. -/
def hasRepealedToken (s : List Char) : Bool :=
  let low := s.map pyLowerChar
  hasSub "abrogé".data low || hasSub "aufgehoben".data low || hasSub "abrogato".data low

/-- `citation.startswith(('Abs. ', 'Al. ', 'al. ', 'lit. ', 'let. ', 'Lit. ', 'Let. '))`. -/
def catFragmentStart (s : List Char) : Bool :=
  ["Abs. ", "Al. ", "al. ", "lit. ", "let. ", "Lit. ", "Let. "].any
    fun p => listStarts p.data s

/-- The month list of `categorize_citation`: case-sensitive, German
(capitalized) and French (lowercase) only. -/
def catMonths : List (List Char) :=
  ["Januar", "Februar", "März", "April", "Mai", "Juni",
   "Juli", "August", "September", "Oktober", "November", "Dezember",
   "janvier", "février", "mars", "avril", "mai", "juin",
   "juillet", "août", "septembre", "octobre", "novembre", "décembre"].map String.data

/-- `categorize_citation` (src/analyze_unparseable.py:17–60). -/
def categorize_citation (s : List Char) : Category :=
  let low := s.map pyLowerChar
  if hasRepealedToken s then .GARBAGE_REPEALED
  else if catFragmentStart s then .GARBAGE_FRAGMENT
  else if catMonths.any (fun m => hasSub m s) then .GARBAGE_DATE
  else if (["ff.", "f.", "ff", "f"].any fun e => listEnds e.data s) && s.any pyIsDigit then
    .GARBAGE_PAGE_REF
  else if ["de la", "du", "des", "de l'", "della", "del", "ist (", "sind ("].any
      (fun e => listEnds e.data s) then .GARBAGE_INCOMPLETE
  else if ["proposition", "motion", "postulat", "initiative"].any
      (fun w => hasSub w.data low) then .GARBAGE_PROPOSAL
  else if (["Art. ", "art. ", "Art ", "art "].any fun p => listStarts p.data s) &&
      decide (s.length < 30) then .RESCUABLE_ARTICLE_ONLY
  else if ["reglement", "règlement", "statut", "ordonnance communale",
      "feuerwehrreglement", "öffentlichkeitsgesetz"].any (fun w => hasSub w.data low) then
    .NON_SWISS_LAW
  else .UNKNOWN

/-! ### Law-Reference Extractor (`extract_law_from_citations`,
src/preprocess_citations.py:99–130) and the Enricher's local variant. -/

/-- Greedy parse of `(?:\.\d+)*`: the list of dot-separated digit groups
following the leading digit run. -/
def rsUnitsGo : Nat → List Char → List (List Char) × List Char
  | 0, r => ([], r)
  | Nat.succ f, '.' :: r2 =>
    let (d, r3) := takeRun pyIsDigit r2
    if d.isEmpty then ([], '.' :: r2)
    else
      let (us, rest) := rsUnitsGo f r3
      (d :: us, rest)
  | _, r => ([], r)

def joinUnits (us : List (List Char)) : List Char :=
  us.foldr (fun u acc => '.' :: u ++ acc) []

/-- One position of `re.search(r'\b(?:rs|sr)\s*(\d+(?:\.\d+)*)\b', low)`.
Greedy backtracking on `(?:\.\d+)*` drops at most the final group: after
dropping one group the next character is `.`, a non-word character, so the
trailing `\b` holds; shrinking `\d+` itself always leaves a digit (a word
character) adjacent, so it never helps. -/
def rsMatchAt (prev : Option Char) (s : List Char) : Option (List Char) :=
  if !boundaryBefore prev then none else
  match s with
  | a :: b :: r =>
    if (a = 'r' && b = 's') || (a = 's' && b = 'r') then
      let (_, r1) := takeRun pyIsSpace r
      let (d1, r2) := takeRun pyIsDigit r1
      if d1.isEmpty then none
      else
        let (us, rest) := rsUnitsGo r2.length r2
        let ok := match rest with
          | [] => true
          | c :: _ => !pyIsWord c
        if ok then some (d1 ++ joinUnits us)
        else if us.isEmpty then none
        else some (d1 ++ joinUnits us.dropLast)
    else none
  | _ => none

def rsSearchAux : Option Char → List Char → Option (List Char)
  | _, [] => none
  | prev, c :: cs =>
    match rsMatchAt prev (c :: cs) with
    | some g => some g
    | none => rsSearchAux (some c) cs

/-- Whole-word occurrence `\b<w>\b` of a letter-only token `w` in `s`. -/
def wordAt (w : List Char) (prev : Option Char) (s : List Char) : Bool :=
  boundaryBefore prev && listStarts w s &&
  match s.drop w.length with
  | [] => true
  | c :: _ => !pyIsWord c

def wordSearchAux (w : List Char) : Option Char → List Char → Bool
  | _, [] => false
  | prev, c :: cs => wordAt w prev (c :: cs) || wordSearchAux w (some c) cs

def hasWord (w s : List Char) : Bool := wordSearchAux w none s

/-- The abbreviation list of `extract_law_from_citations`. -/
def swissLawAbbrevs : List String :=
  ["stgb", "zgb", "or", "bv", "schkg", "zpo", "stpo",
   "uvg", "ahvg", "kvg", "bvg", "avig", "urg", "dsg",
   "usg", "mwstg", "dbg", "vwvg", "pa", "cp", "cc",
   "cst", "cste", "but", "cost"]

/-- The (longer) abbreviation list of the law-gathering loop inside
`enrich_article_only_citations` (src/preprocess_citations.py:154–159). -/
def enrichAbbrevs : List String := swissLawAbbrevs ++ ["bgg", "svg", "emrk", "cedh"]

/-- The per-citation body shared by `extract_law_from_citations` and the
Enricher's gathering loop: an RS/SR registry number if the guard substring
is present and the registry regex matches, else the first whole-word
abbreviation of `abbrevs`, uppercased. -/
def extractFromOne (abbrevs : List String) (c : List Char) : Option (List Char) :=
  let low := c.map pyLowerChar
  let rsHit := if hasSub "rs ".data low || hasSub "sr ".data low
    then rsSearchAux none low else none
  match rsHit with
  | some g => some ("RS ".data ++ g)
  | none =>
    match abbrevs.find? (fun a => hasWord a.data low) with
    | some a => some (a.data.map pyUpperChar)
    | none => none

/-- `extract_law_from_citations` (src/preprocess_citations.py:99–130):
first law reference found over the citation list. -/
def extract_law_from_citations : List (List Char) → Option (List Char)
  | [] => none
  | c :: rest =>
    match extractFromOne swissLawAbbrevs c with
    | some l => some l
    | none => extract_law_from_citations rest

/-! ### Enricher (`enrich_article_only_citations`,
src/preprocess_citations.py:132–213) -/

/-- The `all_laws` gathering loop (src/preprocess_citations.py:142–163). -/
def gatherLoop : List (List Char) → List (List Char)
  | [] => []
  | c :: cs =>
    match extractFromOne enrichAbbrevs c with
    | some l => l :: gatherLoop cs
    | none => gatherLoop cs

/-- The `swiss_law_indicators` substring list of the strict article-only
predicate (src/preprocess_citations.py:180–185). -/
def enrichIndicators : List String :=
  ["stgb", "zgb", "or", "bv", "schkg", "zpo", "stpo",
   "uvg", "ahvg", "kvg", "bvg", "avig", "urg", "dsg",
   "usg", "mwstg", "dbg", "vwvg", "pa", "cp", "cc",
   "bgg", "svg", "emrk", "cedh", "cost", "cst", "cste", "but"]

/-- `re.search(r'\b[A-ZÄÖÜ]{2,}\b', citation)`: a maximal run of the
uppercase class, of length at least 2, with word boundaries on both sides
(shrinking the greedy run never helps, as argued for `rsMatchAt`). -/
def upperRunAux : Option Char → List Char → Bool
  | _, [] => false
  | prev, c :: cs =>
    (isUpperAbbrev c && boundaryBefore prev &&
      (let (run, rest) := takeRun isUpperAbbrev (c :: cs)
       decide (run.length ≥ 2) && boundaryAfter rest)) ||
    upperRunAux (some c) cs

def hasUpperRun (s : List Char) : Bool := upperRunAux none s

/-- Tail of `\b[A-ZÄÖÜ][a-zäöü]*[A-ZÄÖÜ]`: skip lowercase-class characters
until an uppercase-class character (backtracking the greedy `*` never
helps: a shorter run is followed by a lowercase-class character). -/
def mixedTail : List Char → Bool
  | [] => false
  | c :: cs =>
    if isUpperAbbrev c then true
    else if isLowerAbbrevDE c then mixedTail cs
    else false

def mixedCaseAux : Option Char → List Char → Bool
  | _, [] => false
  | prev, c :: cs =>
    (isUpperAbbrev c && boundaryBefore prev && mixedTail cs) ||
    mixedCaseAux (some c) cs

/-- `re.search(r'\b[A-ZÄÖÜ][a-zäöü]*[A-ZÄÖÜ]', citation)`. -/
def hasMixedCase (s : List Char) : Bool := mixedCaseAux none s

/-- The strict "truly article-only" predicate of the Enricher
(src/preprocess_citations.py:175–203). -/
def isArticleOnly (c : List Char) : Bool :=
  let low := pyStrip (c.map pyLowerChar)
  listStarts "art".data low &&
  decide (c.length < 25) &&
  !(enrichIndicators.any fun a => hasSub a.data low) &&
  !(hasSub "rs ".data low || hasSub "sr ".data low ||
    hasSub "rs.".data low || hasSub "sr.".data low) &&
  !hasUpperRun c &&
  !hasMixedCase c

/-- The enrichment loop (src/preprocess_citations.py:172–213): rewrite each
truly-article-only citation to `citation ++ " " ++ law`, count rewrites. -/
def enrichLoop (law : List Char) : List (List Char) → List (List Char) × Nat
  | [] => ([], 0)
  | c :: cs =>
    let r := enrichLoop law cs
    if isArticleOnly c then ((c ++ ' ' :: law) :: r.1, r.2 + 1)
    else (c :: r.1, r.2)

/-- `enrich_article_only_citations` (src/preprocess_citations.py:132–213):
gather all law references, and enrich only when exactly one distinct law
reference was found (`list(set(all_laws))` of length 1). -/
def enrich_article_only_citations (cs : List (List Char)) : List (List Char) × Nat :=
  match (gatherLoop cs).dedup with
  | [law] => enrichLoop law cs
  | _ => (cs, 0)

/-! ### The per-citation filter of `process_csv`
(src/preprocess_citations.py:287–309) -/

/-- Whether one citation of an "articles de loi" list survives the
digit-only filter and the garbage filter, i.e. is appended to
`normalized_articles` and counted in `citations_kept`. -/
def keptByFilter (c : List Char) : Bool :=
  let (n, _, d) := normalize_citation c
  if d then false else !(is_garbage_citation n).1

/-- The `normalized_articles` list built by `process_csv` for one row. -/
def filterArticles (cs : List (List Char)) : List (List Char) :=
  cs.filterMap fun c =>
    let (n, _, d) := normalize_citation c
    if d then none
    else if (is_garbage_citation n).1 then none
    else some n

/-- The final "articles de loi" list written to the output row. -/
def processArticles (cs : List (List Char)) : List (List Char) :=
  (enrich_article_only_citations (filterArticles cs)).1

/-! ### Python dynamic values

The spec speaks about behaviour on non-string inputs, so the guarded
functions are also embedded at the level of dynamic Python values:
calling a `str` method on a non-string raises `AttributeError`. -/

inductive PyVal where
  | str (s : List Char)
  | pynone
  | int (n : Int)
deriving DecidableEq

inductive PyError where
  | attributeError
deriving DecidableEq

instance instDecEqExcept {ε α : Type} [DecidableEq ε] [DecidableEq α] :
    DecidableEq (Except ε α)
  | .ok a, .ok b =>
    if h : a = b then isTrue (by rw [h])
    else isFalse (by intro he; cases he; exact h rfl)
  | .ok _, .error _ => isFalse (by intro he; cases he)
  | .error _, .ok _ => isFalse (by intro he; cases he)
  | .error e, .error f =>
    if h : e = f then isTrue (by rw [h])
    else isFalse (by intro he; cases he; exact h rfl)

/-- Python truthiness, for the `not citation` guards. -/
def pyFalsy : PyVal → Bool
  | .str s => s.isEmpty
  | .pynone => true
  | .int n => n == 0

def isStr : PyVal → Bool
  | .str _ => true
  | _ => false

/-- `normalize_citation` on dynamic values: the guard
`if not citation or not isinstance(citation, str)` passes falsy and
non-string inputs through. -/
def normalizePy (v : PyVal) : PyVal × Bool × Bool :=
  if pyFalsy v || !isStr v then (v, false, false)
  else match v with
    | .str s => let (n, c, d) := normalize_citation s; (.str n, c, d)
    | v => (v, false, false)

/-- `is_garbage_citation` on dynamic values: the guard
`if not citation or not isinstance(citation, str)` returns `(False, None)`
for falsy and non-string inputs. -/
def isGarbagePy (v : PyVal) : Bool × Option String :=
  if pyFalsy v || !isStr v then (false, none)
  else match v with
    | .str s => is_garbage_citation s
    | _ => (false, none)

/-- `categorize_citation` on dynamic values: it calls `citation.lower()`
unconditionally, so a non-string input raises `AttributeError`. -/
def categorizePy : PyVal → Except PyError Category
  | .str s => .ok (categorize_citation s)
  | _ => .error .attributeError

/-- `extract_law_from_citations` on a list of dynamic values: the loop
calls `citation.lower()` on every element before any abbreviation test, so
the first non-string element raises `AttributeError`. -/
def extractLawPy : List PyVal → Except PyError (Option (List Char))
  | [] => .ok none
  | .str c :: rest =>
    match extractFromOne swissLawAbbrevs c with
    | some l => .ok (some l)
    | none => extractLawPy rest
  | _ :: _ => .error .attributeError

/-- `enrich_article_only_citations` on dynamic values: the gathering loop
runs over all citations before anything is returned, so any non-string
element raises `AttributeError`. -/
def enrichPy (vs : List PyVal) : Except PyError (List PyVal × Nat) :=
  if vs.all isStr then
    let cs := vs.filterMap fun v => match v with
      | .str s => some s
      | _ => none
    let (out, n) := enrich_article_only_citations cs
    .ok (out.map .str, n)
  else .error .attributeError

/-! ### Helper lemmas -/

theorem append_cons_ne (c l : List Char) (d : Char) : c ++ d :: l ≠ c := by
  intro h
  have hl := congrArg List.length h
  simp at hl

theorem append_cons_bne (c l : List Char) (d : Char) : (c ++ d :: l != c) = true := by
  simp only [bne_iff_ne, ne_eq]
  exact append_cons_ne c l d

theorem zip_self_countP_ne (cs : List (List Char)) :
    ((cs.zip cs).countP fun p => p.1 != p.2) = 0 := by
  induction cs with
  | nil => rfl
  | cons c cs ih => simp [List.countP_cons, ih]

theorem enrichLoop_length (law : List Char) (cs : List (List Char)) :
    (enrichLoop law cs).1.length = cs.length := by
  induction cs with
  | nil => rfl
  | cons c cs ih =>
    by_cases h : isArticleOnly c = true <;> simp [enrichLoop, h, ih]

theorem enrichLoop_count (law : List Char) (cs : List (List Char)) :
    (enrichLoop law cs).2 =
      (((enrichLoop law cs).1.zip cs).countP fun p => p.1 != p.2) := by
  induction cs with
  | nil => rfl
  | cons c cs ih =>
    by_cases h : isArticleOnly c = true
    · simp [enrichLoop, h, List.countP_cons, append_cons_bne, ih]
    · simp [enrichLoop, h, List.countP_cons, ih]

theorem enrichLoop_forall2 (law : List Char) (cs : List (List Char)) :
    List.Forall₂ (fun c o => o = c ∨ o = c ++ ' ' :: law) cs (enrichLoop law cs).1 := by
  induction cs with
  | nil => exact List.Forall₂.nil
  | cons c cs ih =>
    by_cases h : isArticleOnly c = true
    · simp only [enrichLoop, h, if_true]
      exact List.Forall₂.cons (Or.inr rfl) ih
    · simp only [enrichLoop, h, Bool.false_eq_true, if_false]
      exact List.Forall₂.cons (Or.inl rfl) ih

theorem mem_enrichLoop (law x : List Char) (cs : List (List Char))
    (hx : x ∈ cs) (ha : isArticleOnly x = false) : x ∈ (enrichLoop law cs).1 := by
  induction cs with
  | nil => cases hx
  | cons c cs ih =>
    rcases List.mem_cons.mp hx with rfl | hmem
    · simp [enrichLoop, ha]
    · by_cases h : isArticleOnly c = true <;> simp [enrichLoop, h, ih hmem]

theorem mem_enrich (x : List Char) (cs : List (List Char))
    (hx : x ∈ cs) (ha : isArticleOnly x = false) :
    x ∈ (enrich_article_only_citations cs).1 := by
  unfold enrich_article_only_citations
  rcases hd : (gatherLoop cs).dedup with _ | ⟨law, _ | _⟩
  · exact hx
  · exact mem_enrichLoop law x cs hx ha
  · exact hx

theorem gatherLoop_eq_filterMap (cs : List (List Char)) :
    gatherLoop cs = cs.filterMap (extractFromOne enrichAbbrevs) := by
  induction cs with
  | nil => rfl
  | cons c cs ih =>
    cases h : extractFromOne enrichAbbrevs c <;>
      simp [gatherLoop, h, List.filterMap_cons, ih]

/-! ### Claim theorems -/

/-- C1: for every list of citation strings, `enrich_article_only_citations`
performs enrichment only when the deduplicated collection of law
references gathered over the full citation list has exactly one element;
with zero or at least two distinct references it returns the input list
unchanged and an enrichment count of 0. -/
theorem enrich_safety (cs : List (List Char))
    (h : ((gatherLoop cs).dedup).length ≠ 1) :
    enrich_article_only_citations cs = (cs, 0) := by
  unfold enrich_article_only_citations
  rcases hd : (gatherLoop cs).dedup with _ | ⟨law, _ | _⟩
  · rfl
  · rw [hd] at h; simp at h
  · rfl

/-- Witness for C1: a record whose citations carry two distinct law
references (`STGB` and `ZGB`) is returned unchanged with count 0. -/
theorem enrich_safety_witness :
    ((gatherLoop ["art. 5".data, "StGB Art. 10".data, "ZGB Art. 2".data]).dedup).length ≠ 1 ∧
    enrich_article_only_citations ["art. 5".data, "StGB Art. 10".data, "ZGB Art. 2".data] =
      (["art. 5".data, "StGB Art. 10".data, "ZGB Art. 2".data], 0) :=
  ⟨by decide, enrich_safety _ (by decide)⟩

/-- C2 is false as stated: normalizing `"12 aAb3"` yields `"12 aAb"`
(footnote digit stripped), and normalizing that again yields `"12 a Ab"`
(the spacing rule now matches), so `normalize` is not idempotent. -/
theorem normalize_not_idempotent :
    (normalize_citation (normalize_citation "12 aAb3".data).1).1 ≠
      (normalize_citation "12 aAb3".data).1 := by decide

/-- C2 amended: normalization is idempotent on every string it leaves
unchanged; in general a second application can differ, because stripping a
trailing footnote digit can expose a new match for the spacing rules. -/
theorem normalize_idempotent_on_unchanged (s : List Char)
    (h : (normalize_citation s).1 = s) :
    (normalize_citation (normalize_citation s).1).1 = (normalize_citation s).1 := by
  rw [h]
  exact h

/-- Witness for the amended C2 at `"Art. 5 StGB"`, which normalization
leaves unchanged. -/
theorem normalize_idempotent_on_unchanged_witness :
    (normalize_citation "Art. 5 StGB".data).1 = "Art. 5 StGB".data ∧
    (normalize_citation (normalize_citation "Art. 5 StGB".data).1).1 =
      (normalize_citation "Art. 5 StGB".data).1 :=
  ⟨by decide, normalize_idempotent_on_unchanged _ (by decide)⟩

/-- C3: the code contradicts the claim (and its own comment, which says
garbage filtering covers "repealed markers"): `is_garbage_citation` has no
repealed-token rule, so `"Art. 5 abrogé"` — which `categorize_citation`
labels `GARBAGE_REPEALED` — passes the per-citation filter of
`process_csv` and is written to the output table. -/
theorem repealed_citation_written_to_output :
    categorize_citation "Art. 5 abrogé".data = Category.GARBAGE_REPEALED ∧
    is_garbage_citation "Art. 5 abrogé".data = (false, none) ∧
    keptByFilter "Art. 5 abrogé".data = true ∧
    processArticles ["Art. 5 abrogé".data] = ["Art. 5 abrogé".data] := by decide

/-- C4: every citation in the Enricher's output is either the
corresponding input citation unchanged, or that citation followed by a
single space and the record's unique law reference. -/
theorem enrich_superset (cs : List (List Char)) :
    List.Forall₂ (fun c o => o = c ∨
      ∃ law, (gatherLoop cs).dedup = [law] ∧ o = c ++ ' ' :: law)
      cs (enrich_article_only_citations cs).1 := by
  unfold enrich_article_only_citations
  rcases hd : (gatherLoop cs).dedup with _ | ⟨law, _ | ⟨b, tl⟩⟩
  · exact List.forall₂_same.mpr fun x _ => Or.inl rfl
  · refine (enrichLoop_forall2 law cs).imp fun a o ho => ?_
    rcases ho with ho | ho
    · exact Or.inl ho
    · exact Or.inr ⟨law, rfl, ho⟩
  · exact List.forall₂_same.mpr fun x _ => Or.inl rfl

/-- C5 is false as stated: the Enricher's gathering loop recognizes the
abbreviation `bgg` (also `svg`, `emrk`, `cedh`), which
`extract_law_from_citations` does not, so on `["BGG"]` the gathered
collection is `["BGG"]` while the per-citation extractor results are
empty. -/
theorem gather_vs_extractor_differ :
    (gatherLoop ["BGG".data]).dedup ≠
      (["BGG".data].filterMap fun c => extract_law_from_citations [c]).dedup ∧
    gatherLoop ["BGG".data] = ["BGG".data] ∧
    (["BGG".data].filterMap fun c => extract_law_from_citations [c]) = [] := by decide

theorem extractFromOne_extra_eq (c : List Char)
    (h : ∀ a ∈ ["bgg", "svg", "emrk", "cedh"],
      hasWord a.data (c.map pyLowerChar) = false) :
    extractFromOne enrichAbbrevs c = extractFromOne swissLawAbbrevs c := by
  simp only [extractFromOne]
  have hextra : List.find? (fun a => hasWord a.data (c.map pyLowerChar))
      ["bgg", "svg", "emrk", "cedh"] = none := by
    rw [List.find?_eq_none]
    intro a ha
    simp [h a ha]
  have hfind : List.find? (fun a => hasWord a.data (c.map pyLowerChar)) enrichAbbrevs
      = List.find? (fun a => hasWord a.data (c.map pyLowerChar)) swissLawAbbrevs := by
    unfold enrichAbbrevs
    rw [List.find?_append, hextra]
    cases List.find? (fun a => hasWord a.data (c.map pyLowerChar)) swissLawAbbrevs <;> rfl
  rw [hfind]

theorem extract_single_eq (c : List Char) :
    extract_law_from_citations [c] = extractFromOne swissLawAbbrevs c := by
  unfold extract_law_from_citations
  cases extractFromOne swissLawAbbrevs c <;> rfl

/-- C5 amended: the collection gathered inside
`enrich_article_only_citations` is the per-citation application of the
Enricher's local extractor, whose abbreviation list extends that of
`extract_law_from_citations` by `bgg`, `svg`, `emrk`, `cedh`; whenever no
citation contains one of those four as a whole word, the gathered
collection equals the per-citation results of
`extract_law_from_citations`. -/
theorem gather_refines_extractor (cs : List (List Char))
    (h : ∀ c ∈ cs, ∀ a ∈ ["bgg", "svg", "emrk", "cedh"],
      hasWord a.data (c.map pyLowerChar) = false) :
    gatherLoop cs = cs.filterMap fun c => extract_law_from_citations [c] := by
  rw [gatherLoop_eq_filterMap]
  refine List.filterMap_congr fun c hc => ?_
  rw [extractFromOne_extra_eq c (h c hc), extract_single_eq]

/-- Witness for the amended C5: a record over the base abbreviation list
only. -/
theorem gather_refines_extractor_witness :
    (∀ c ∈ ["art. 3 StGB".data], ∀ a ∈ ["bgg", "svg", "emrk", "cedh"],
      hasWord a.data (c.map pyLowerChar) = false) ∧
    gatherLoop ["art. 3 StGB".data] =
      (["art. 3 StGB".data].filterMap fun c => extract_law_from_citations [c]) :=
  ⟨by decide, gather_refines_extractor _ (by decide)⟩

/-- C6 is false as stated: `categorize_citation`,
`extract_law_from_citations` and `enrich_article_only_citations` call
`str` methods on their input unconditionally, so a non-string value
raises `AttributeError` instead of being passed through. -/
theorem categorize_raises_on_nonstring :
    categorizePy PyVal.pynone = Except.error PyError.attributeError ∧
    extractLawPy [PyVal.int 5] = Except.error PyError.attributeError ∧
    enrichPy [PyVal.pynone] = Except.error PyError.attributeError := by decide

/-- C6 amended: `normalize_citation` and `is_garbage_citation` accept any
value and treat falsy or non-string input as a no-op pass-through
(returning the input resp. `(False, None)`), and all functions are total
on strings including the empty string; but `categorize_citation` (and the
citation-list functions) raise `AttributeError` on non-string input. -/
theorem totality_amended (v : PyVal) (h : isStr v = false) :
    normalizePy v = (v, false, false) ∧
    isGarbagePy v = (false, none) ∧
    categorizePy v = Except.error PyError.attributeError ∧
    normalizePy (PyVal.str []) = (PyVal.str [], false, false) ∧
    isGarbagePy (PyVal.str []) = (false, none) ∧
    categorizePy (PyVal.str []) = Except.ok Category.UNKNOWN := by
  cases v with
  | str s => exact absurd h (by simp [isStr])
  | pynone => exact ⟨by decide, by decide, by decide, by decide, by decide, by decide⟩
  | int n =>
    refine ⟨?_, ?_, rfl, by decide, by decide, by decide⟩
    · simp [normalizePy, isStr]
    · simp [isGarbagePy, isStr]

/-- Witness for the amended C6 at the non-string value `3`. -/
theorem totality_amended_witness :
    isStr (PyVal.int 3) = false ∧
    (normalizePy (PyVal.int 3) = (PyVal.int 3, false, false) ∧
     isGarbagePy (PyVal.int 3) = (false, none) ∧
     categorizePy (PyVal.int 3) = Except.error PyError.attributeError ∧
     normalizePy (PyVal.str []) = (PyVal.str [], false, false) ∧
     isGarbagePy (PyVal.str []) = (false, none) ∧
     categorizePy (PyVal.str []) = Except.ok Category.UNKNOWN) :=
  ⟨by decide, totality_amended (PyVal.int 3) (by decide)⟩

/-- C7 is false as stated: `"abs. 2"` begins with a lowercase-case variant
of a paragraph marker followed by a space and contains no article marker,
yet neither classifier flags it as a fragment — the rules recognize only
the seven exact spellings `Abs.`, `Al.`, `al.`, `lit.`, `let.`, `Lit.`,
`Let.`. -/
theorem lowercase_fragment_not_flagged :
    hasArticleMarker "abs. 2".data = false ∧
    is_garbage_citation "abs. 2".data = (false, none) ∧
    categorize_citation "abs. 2".data = Category.UNKNOWN := by decide

/-- C7 amended: for every citation beginning with one of exactly `Abs.`,
`Al.`, `al.`, `lit.`, `let.`, `Lit.`, `Let.` followed by a whitespace
character, `is_garbage_citation` flags it with reason `fragment_marker`
(no article-marker test is involved); `categorize_citation` assigns
`GARBAGE_FRAGMENT` when the marker is followed by a space character and
the citation carries no repealed token. -/
theorem fragment_marker_amended (s : List Char) (h : isFragmentMarker s = true) :
    is_garbage_citation s = (true, some "fragment_marker") ∧
    (catFragmentStart s = true → hasRepealedToken s = false →
      categorize_citation s = Category.GARBAGE_FRAGMENT) := by
  have h0 : s.isEmpty = false := by
    cases s with
    | nil => exact absurd h (by decide)
    | cons c cs => rfl
  constructor
  · simp [is_garbage_citation, h0, h]
  · intro hc hr
    simp [categorize_citation, hr, hc]

/-- Witness for the amended C7 at `"Abs. 3"`. -/
theorem fragment_marker_amended_witness :
    isFragmentMarker "Abs. 3".data = true ∧
    catFragmentStart "Abs. 3".data = true ∧
    hasRepealedToken "Abs. 3".data = false ∧
    is_garbage_citation "Abs. 3".data = (true, some "fragment_marker") ∧
    categorize_citation "Abs. 3".data = Category.GARBAGE_FRAGMENT := by
  refine ⟨by decide, by decide, by decide, ?_, ?_⟩
  · exact (fragment_marker_amended "Abs. 3".data (by decide)).1
  · exact (fragment_marker_amended "Abs. 3".data (by decide)).2 (by decide) (by decide)

/-- C8 is false as stated: `categorize_citation` has no article-marker
exception in its date rule, so `"Art. 5 janvier"` — which contains an
article marker followed by a digit — is still labelled `GARBAGE_DATE`. -/
theorem date_rule_fires_despite_article :
    hasArticleMarker "Art. 5 janvier".data = true ∧
    categorize_citation "Art. 5 janvier".data = Category.GARBAGE_DATE := by decide

/-- C8 amended: in `is_garbage_citation` the date rule behaves as claimed
up to rule priority — a citation containing a month token and no article
marker followed by a digit is flagged `date_reference` provided the
fragment-marker rule does not match first, and with an article marker
followed by a digit the reason `date_reference` is never returned.
`categorize_citation`'s date rule instead uses a case-sensitive
German/French month list and ignores article markers. -/
theorem date_rule_amended (s t : List Char)
    (hm : hasMonth s = true) (ha : hasArticleMarker s = false)
    (hf : isFragmentMarker s = false)
    (ht : hasArticleMarker t = true) :
    is_garbage_citation s = (true, some "date_reference") ∧
    (is_garbage_citation t).2 ≠ some "date_reference" := by
  have h0 : s.isEmpty = false := by
    cases s with
    | nil => exact absurd hm (by decide)
    | cons c cs => rfl
  have h1 : t.isEmpty = false := by
    cases t with
    | nil => exact absurd ht (by decide)
    | cons c cs => rfl
  refine ⟨by simp [is_garbage_citation, h0, hf, hm, ha], ?_⟩
  unfold is_garbage_citation
  simp only [h1, Bool.false_eq_true, if_false, ht, Bool.not_true, Bool.and_false]
  split_ifs <;> decide

/-- Witness for the amended C8 with a bare date and an
article-marker-bearing citation. -/
theorem date_rule_amended_witness :
    hasMonth "3 janvier 1990".data = true ∧
    hasArticleMarker "3 janvier 1990".data = false ∧
    isFragmentMarker "3 janvier 1990".data = false ∧
    hasArticleMarker "Art. 7 StGB".data = true ∧
    is_garbage_citation "3 janvier 1990".data = (true, some "date_reference") ∧
    (is_garbage_citation "Art. 7 StGB".data).2 ≠ some "date_reference" := by
  refine ⟨by decide, by decide, by decide, by decide, ?_, ?_⟩
  · exact (date_rule_amended "3 janvier 1990".data "Art. 7 StGB".data
      (by decide) (by decide) (by decide) (by decide)).1
  · exact (date_rule_amended "3 janvier 1990".data "Art. 7 StGB".data
      (by decide) (by decide) (by decide) (by decide)).2

/-- C9: the Enricher returns a list of the same length, derived
position by position, and the enrichment count equals the number of
positions where the output differs from the input. -/
theorem enrich_length_count (cs : List (List Char)) :
    (enrich_article_only_citations cs).1.length = cs.length ∧
    (enrich_article_only_citations cs).2 =
      (((enrich_article_only_citations cs).1.zip cs).countP fun p => p.1 != p.2) := by
  unfold enrich_article_only_citations
  rcases hd : (gatherLoop cs).dedup with _ | ⟨law, _ | ⟨b, tl⟩⟩
  · exact ⟨rfl, (zip_self_countP_ne cs).symm⟩
  · exact ⟨enrichLoop_length law cs, enrichLoop_count law cs⟩
  · exact ⟨rfl, (zip_self_countP_ne cs).symm⟩

/-- C10: empty strings and non-string values pass through
`normalize_citation` unchanged with both flags false and pass the garbage
filter with `(False, None)`; consequently an empty-string citation in an
"articles de loi" list survives both filters, is counted as kept, and is
written to the output table. -/
theorem empty_citation_kept (v : PyVal) (hv : isStr v = false)
    (cs : List (List Char)) (h : [] ∈ cs) :
    normalize_citation [] = ([], false, false) ∧
    is_garbage_citation [] = (false, none) ∧
    normalizePy v = (v, false, false) ∧
    isGarbagePy v = (false, none) ∧
    keptByFilter [] = true ∧
    [] ∈ filterArticles cs ∧
    [] ∈ processArticles cs := by
  refine ⟨by decide, by decide, ?_, ?_, by decide, ?_, ?_⟩
  · cases v with
    | str s => exact absurd hv (by simp [isStr])
    | pynone => decide
    | int n => simp [normalizePy, isStr]
  · cases v with
    | str s => exact absurd hv (by simp [isStr])
    | pynone => decide
    | int n => simp [isGarbagePy, isStr]
  · exact List.mem_filterMap.mpr ⟨[], h, by decide⟩
  · exact mem_enrich [] (filterArticles cs)
      (List.mem_filterMap.mpr ⟨[], h, by decide⟩) (by decide)

/-- Witness for C10 at the non-string value `2` and the one-element list
containing the empty citation. -/
theorem empty_citation_kept_witness :
    isStr (PyVal.int 2) = false ∧ ([] : List Char) ∈ [([] : List Char)] ∧
    (normalize_citation [] = ([], false, false) ∧
     is_garbage_citation [] = (false, none) ∧
     normalizePy (PyVal.int 2) = (PyVal.int 2, false, false) ∧
     isGarbagePy (PyVal.int 2) = (false, none) ∧
     keptByFilter [] = true ∧
     ([] : List Char) ∈ filterArticles [[]] ∧
     ([] : List Char) ∈ processArticles [[]]) :=
  ⟨by decide, by decide, empty_citation_kept (PyVal.int 2) (by decide) [[]] (by decide)⟩

end GraphBuilding
